import Mathlib

/-!
Verification of the session relay and supervision engine of superintent-remote.

The definitions below are a shallow embedding of the TypeScript source:
  * the scrollback store and terminal hub (terminal module),
  * the SSH auth gatekeeper (per-IP failure tracking and lockout),
  * the connection manager (connection cap counting),
  * the supervisor/watchdog restart loop.
Byte buffers are modelled as `List Nat`, timestamps (`Date.now()`) as `Nat`
milliseconds, and the module-level mutable variables as explicit state that
every operation threads.
-/

namespace SuperintentRemote

/-! ## Scrollback store and terminal hub

Embeds the terminal module: `MAX_SCROLLBACK`, `appendScrollback` (push then
trim-from-front while over the limit), `getScrollbackBuffer` (`Buffer.concat`),
`addClient` (add to the client set, then replay the scrollback if non-empty),
and the pty `data` callback (append to scrollback, then broadcast the chunk to
every client). A client is modelled as its identifier paired with the byte
stream written to it so far. -/

def MAX_SCROLLBACK : Nat := 512 * 1024

/-- Total buffered size of a chunk list (the quantity the module tracks in the
mutable `scrollbackSize`). -/
def sumLens (chunks : List (List Nat)) : Nat := (chunks.map List.length).sum

/-- The `while (scrollbackSize > MAX_SCROLLBACK && scrollbackChunks.length > 1)`
loop of `appendScrollback`: shift the oldest chunk and subtract its length. -/
def trimScrollback : List (List Nat) → Nat → List (List Nat) × Nat
  | [], size => ([], size)
  | removed :: rest, size =>
    if size > MAX_SCROLLBACK ∧ (removed :: rest).length > 1 then
      trimScrollback rest (size - removed.length)
    else (removed :: rest, size)

/-- `appendScrollback(data)`: push the chunk, add its length, then trim. -/
def appendScrollback (st : List (List Nat) × Nat) (data : List Nat) :
    List (List Nat) × Nat :=
  trimScrollback (st.1 ++ [data]) (st.2 + data.length)

/-- A sequence of `appendScrollback` calls, oldest first. -/
def runAppend (st : List (List Nat) × Nat) : List (List Nat) → List (List Nat) × Nat
  | [] => st
  | b :: rest => runAppend (appendScrollback st b) rest

@[simp] theorem sumLens_nil : sumLens [] = 0 := rfl

@[simp] theorem sumLens_cons (a : List Nat) (l : List (List Nat)) :
    sumLens (a :: l) = a.length + sumLens l := by
  simp [sumLens]

@[simp] theorem sumLens_append (l₁ l₂ : List (List Nat)) :
    sumLens (l₁ ++ l₂) = sumLens l₁ + sumLens l₂ := by
  simp [sumLens]

/-- The trim loop keeps the tracked size equal to the real size, returns a
suffix of its input, stops only under the cap or with at most one chunk, and
never empties a non-empty buffer. -/
theorem trimScrollback_spec (chunks : List (List Nat)) :
    ∀ size, size = sumLens chunks →
      (trimScrollback chunks size).2 = sumLens (trimScrollback chunks size).1 ∧
      (∃ t, t ++ (trimScrollback chunks size).1 = chunks) ∧
      ((trimScrollback chunks size).2 ≤ MAX_SCROLLBACK ∨
        (trimScrollback chunks size).1.length ≤ 1) ∧
      (chunks ≠ [] → (trimScrollback chunks size).1 ≠ []) := by
  induction chunks with
  | nil =>
    intro size h
    simp [sumLens] at h
    subst h
    refine ⟨rfl, ⟨[], rfl⟩, Or.inl (by norm_num [trimScrollback, MAX_SCROLLBACK]),
      by simp [trimScrollback]⟩
  | cons removed rest ih =>
    intro size h
    rw [trimScrollback]
    by_cases hc : size > MAX_SCROLLBACK ∧ (removed :: rest).length > 1
    · rw [if_pos hc]
      have hsz : size - removed.length = sumLens rest := by
        simp [sumLens_cons] at h
        omega
      obtain ⟨h1, ⟨t, ht⟩, h3, h4⟩ := ih (size - removed.length) hsz
      have hrest : rest ≠ [] := by
        rcases hc with ⟨-, hlen⟩
        simp at hlen
        exact List.ne_nil_of_length_pos hlen
      exact ⟨h1, ⟨removed :: t, by simp [ht]⟩, h3, fun _ => h4 hrest⟩
    · rw [if_neg hc]
      refine ⟨h, ⟨[], rfl⟩, ?_, fun _ => by simp⟩
      by_cases hs : size ≤ MAX_SCROLLBACK
      · exact Or.inl hs
      · right
        push_neg at hc
        simpa using hc (by omega)

/-- When already within the cap the trim loop does nothing. -/
theorem trimScrollback_id (chunks : List (List Nat)) (size : Nat)
    (h : size ≤ MAX_SCROLLBACK) : trimScrollback chunks size = (chunks, size) := by
  cases chunks with
  | nil => rfl
  | cons a l =>
    rw [trimScrollback, if_neg]
    intro hc
    omega

/-- One append keeps the size exact, returns a suffix of the chunks plus the
new chunk, re-establishes the cap disjunction, and never returns empty. -/
theorem appendScrollback_spec (c : List (List Nat)) (s : Nat) (b : List Nat)
    (h : s = sumLens c) :
    (appendScrollback (c, s) b).2 = sumLens (appendScrollback (c, s) b).1 ∧
    (∃ t, t ++ (appendScrollback (c, s) b).1 = c ++ [b]) ∧
    ((appendScrollback (c, s) b).2 ≤ MAX_SCROLLBACK ∨
      (appendScrollback (c, s) b).1.length = 1) ∧
    (appendScrollback (c, s) b).1 ≠ [] := by
  have hA : appendScrollback (c, s) b = trimScrollback (c ++ [b]) (s + b.length) := rfl
  have hs : s + b.length = sumLens (c ++ [b]) := by simp [h]
  obtain ⟨h1, h2, h3, h4⟩ := trimScrollback_spec (c ++ [b]) (s + b.length) hs
  rw [hA]
  have hne : (trimScrollback (c ++ [b]) (s + b.length)).1 ≠ [] := h4 (by simp)
  refine ⟨h1, h2, ?_, hne⟩
  rcases h3 with h3 | h3
  · exact Or.inl h3
  · right
    have hpos : 0 < (trimScrollback (c ++ [b]) (s + b.length)).1.length :=
      List.length_pos.mpr hne
    omega

/-- Invariant carried across a whole run of appends. -/
theorem runAppend_spec (bufs : List (List Nat)) :
    ∀ c s, s = sumLens c →
      (runAppend (c, s) bufs).2 = sumLens (runAppend (c, s) bufs).1 ∧
      (∃ t, t ++ (runAppend (c, s) bufs).1 = c ++ bufs) ∧
      (bufs ≠ [] →
        ((runAppend (c, s) bufs).2 ≤ MAX_SCROLLBACK ∨
            (runAppend (c, s) bufs).1.length = 1) ∧
          (runAppend (c, s) bufs).1 ≠ []) := by
  induction bufs with
  | nil =>
    intro c s h
    exact ⟨h, ⟨[], by simp [runAppend]⟩, fun hne => absurd rfl hne⟩
  | cons b rest ih =>
    intro c s h
    obtain ⟨a1, ⟨t₂, ht₂⟩, a3, a4⟩ := appendScrollback_spec c s b h
    have hrw : runAppend (c, s) (b :: rest) =
        runAppend ((appendScrollback (c, s) b).1, (appendScrollback (c, s) b).2) rest := by
      rw [runAppend]
    cases rest with
    | nil =>
      rw [hrw]
      refine ⟨a1, ⟨t₂, by simpa [runAppend] using ht₂⟩, fun _ => ?_⟩
      simp only [runAppend]
      exact ⟨a3, a4⟩
    | cons b₂ rest₂ =>
      obtain ⟨i1, ⟨t₁, ht₁⟩, i3⟩ :=
        ih (appendScrollback (c, s) b).1 (appendScrollback (c, s) b).2 a1
      rw [hrw]
      refine ⟨i1, ⟨t₂ ++ t₁, ?_⟩, fun _ => i3 (by simp)⟩
      calc (t₂ ++ t₁) ++ (runAppend ((appendScrollback (c, s) b).1,
              (appendScrollback (c, s) b).2) (b₂ :: rest₂)).1
          = t₂ ++ (t₁ ++ (runAppend ((appendScrollback (c, s) b).1,
              (appendScrollback (c, s) b).2) (b₂ :: rest₂)).1) := by
            rw [List.append_assoc]
        _ = t₂ ++ ((appendScrollback (c, s) b).1 ++ (b₂ :: rest₂)) := by rw [ht₁]
        _ = (t₂ ++ (appendScrollback (c, s) b).1) ++ (b₂ :: rest₂) := by
            rw [List.append_assoc]
        _ = (c ++ [b]) ++ (b₂ :: rest₂) := by rw [ht₂]
        _ = c ++ (b :: b₂ :: rest₂) := by simp

/-- As long as the running total stays within the cap no eviction happens. -/
theorem runAppend_no_evict (bufs : List (List Nat)) :
    ∀ c s, s = sumLens c → sumLens c + sumLens bufs ≤ MAX_SCROLLBACK →
      runAppend (c, s) bufs = (c ++ bufs, sumLens c + sumLens bufs) := by
  induction bufs with
  | nil =>
    intro c s h _
    simp [runAppend, h]
  | cons b rest ih =>
    intro c s h hle
    rw [runAppend]
    have hstep : appendScrollback (c, s) b = (c ++ [b], s + b.length) := by
      rw [appendScrollback]
      exact trimScrollback_id _ _ (by simp [sumLens_cons] at hle; omega)
    rw [hstep]
    have := ih (c ++ [b]) (s + b.length) (by simp [h])
      (by simp [sumLens_cons] at hle ⊢; omega)
    rw [this]
    congr 1
    · simp
    · simp [sumLens_cons]
      omega

/-- The terminal module's mutable hub state: the scrollback chunk list, the
tracked `scrollbackSize`, and the client set. Each client is its identifier
paired with every byte written to it so far (its received stream). -/
structure Hub where
  chunks : List (List Nat)
  size : Nat
  clients : List (Nat × List Nat)

/-- Fresh module state (`scrollbackChunks = []`, `scrollbackSize = 0`, empty
client set). -/
def hub0 : Hub := ⟨[], 0, []⟩

/-- `getScrollbackBuffer()`: `Buffer.concat(scrollbackChunks)`. -/
def getScrollbackBuffer (h : Hub) : List Nat := h.chunks.flatten

/-- The pty `data` callback: `appendScrollback(data)` then
`client.write(data)` for every registered client. -/
def hubOutput (h : Hub) (data : List Nat) : Hub :=
  { chunks := (appendScrollback (h.chunks, h.size) data).1
    size := (appendScrollback (h.chunks, h.size) data).2
    clients := h.clients.map (fun c => (c.1, c.2 ++ data)) }

/-- `addClient(client)`: add to the set, then synchronously replay the current
scrollback buffer to the new client if `scrollbackSize > 0`. -/
def addClient (h : Hub) (cid : Nat) : Hub :=
  { h with clients :=
      (cid, if h.size > 0 then getScrollbackBuffer h else []) :: h.clients }

/-- `removeClient(client)`: delete from the set. -/
def removeClient (h : Hub) (cid : Nat) : Hub :=
  { h with clients := h.clients.filter (fun c => c.1 != cid) }

/-- A sequence of process-output events, oldest first. -/
def runOutputs (h : Hub) : List (List Nat) → Hub
  | [] => h
  | d :: rest => runOutputs (hubOutput h d) rest

/-- The byte stream a registered client has received so far. -/
def received (h : Hub) (cid : Nat) : Option (List Nat) :=
  h.clients.lookup cid

theorem runOutputs_clients (outs : List (List Nat)) :
    ∀ h : Hub, (runOutputs h outs).clients =
      h.clients.map (fun c => (c.1, c.2 ++ outs.flatten)) := by
  induction outs with
  | nil =>
    intro h
    simp [runOutputs]
  | cons d rest ih =>
    intro h
    rw [runOutputs, ih]
    simp [hubOutput, List.map_map, Function.comp]

theorem runOutputs_store (outs : List (List Nat)) :
    ∀ h : Hub, ((runOutputs h outs).chunks, (runOutputs h outs).size) =
      runAppend (h.chunks, h.size) outs := by
  induction outs with
  | nil =>
    intro h
    rfl
  | cons d rest ih =>
    intro h
    rw [runOutputs, runAppend, ih]
    rfl

/-- C2: after any non-empty sequence of appends, the tracked size is exact and
either at most the 512 KiB cap or exactly one chunk remains; the surviving
chunks are a suffix of the appended sequence (so concatenation preserves the
original output order) and the newest chunk is never evicted. -/
theorem scrollback_cap_invariant (bufs : List (List Nat)) (hne : bufs ≠ []) :
    (runAppend ([], 0) bufs).2 = sumLens (runAppend ([], 0) bufs).1 ∧
    ((runAppend ([], 0) bufs).2 ≤ MAX_SCROLLBACK ∨
      (runAppend ([], 0) bufs).1.length = 1) ∧
    (runAppend ([], 0) bufs).1 ≠ [] ∧
    (∃ t, t ++ (runAppend ([], 0) bufs).1 = bufs) ∧
    (∃ t, t ++ (runAppend ([], 0) bufs).1.flatten = bufs.flatten) := by
  obtain ⟨h1, ⟨t, ht⟩, h3⟩ := runAppend_spec bufs [] 0 rfl
  obtain ⟨hcap, hone⟩ := h3 hne
  refine ⟨h1, hcap, hone, ⟨t, by simpa using ht⟩, ⟨t.flatten, ?_⟩⟩
  have := congrArg List.flatten ht
  simpa [List.flatten_append] using this

theorem scrollback_cap_invariant_witness :
    ([[0]] : List (List Nat)) ≠ [] ∧
    ((runAppend ([], 0) [[0]]).2 = sumLens (runAppend ([], 0) [[0]]).1 ∧
      ((runAppend ([], 0) [[0]]).2 ≤ MAX_SCROLLBACK ∨
        (runAppend ([], 0) [[0]]).1.length = 1) ∧
      (runAppend ([], 0) [[0]]).1 ≠ [] ∧
      (∃ t, t ++ (runAppend ([], 0) [[0]]).1 = [[0]]) ∧
      (∃ t, t ++ (runAppend ([], 0) [[0]]).1.flatten =
        ([[0]] : List (List Nat)).flatten)) :=
  ⟨by simp, scrollback_cap_invariant [[0]] (by simp)⟩

/-- C1 (amended): a sink registered after the output events `outs₁`, followed
by further output events `outs₂`, receives exactly the scrollback replay
followed by the live broadcast bytes; when the total prior output is within
the cap (so no eviction has occurred) the replay is exactly those bytes, once,
before any live broadcast byte. -/
theorem replay_completeness_capped (outs₁ outs₂ : List (List Nat)) (cid : Nat)
    (hcap : sumLens outs₁ ≤ MAX_SCROLLBACK) :
    received (runOutputs (addClient (runOutputs hub0 outs₁) cid) outs₂) cid
      = some (outs₁.flatten ++ outs₂.flatten) := by
  have hstore := runOutputs_store outs₁ hub0
  have hrun := runAppend_no_evict outs₁ [] 0 rfl (by simpa using hcap)
  rw [show (hub0.chunks, hub0.size) = (([] : List (List Nat)), 0) from rfl, hrun] at hstore
  have hch : (runOutputs hub0 outs₁).chunks = outs₁ := by
    have := congrArg Prod.fst hstore
    simpa using this
  have hsz : (runOutputs hub0 outs₁).size = sumLens outs₁ := by
    have := congrArg Prod.snd hstore
    simpa using this
  have hcl : (runOutputs hub0 outs₁).clients = [] := by
    have := runOutputs_clients outs₁ hub0
    simpa [hub0] using this
  have hreplay :
      (if (runOutputs hub0 outs₁).size > 0
        then getScrollbackBuffer (runOutputs hub0 outs₁) else []) = outs₁.flatten := by
    by_cases hpos : (runOutputs hub0 outs₁).size > 0
    · rw [if_pos hpos]
      rw [getScrollbackBuffer, hch]
    · rw [if_neg hpos]
      have hzero : sumLens outs₁ = 0 := by omega
      have : outs₁.flatten.length = 0 := by
        simpa [sumLens] using hzero
      exact (List.length_eq_zero.mp this).symm
  have hclients := runOutputs_clients outs₂ (addClient (runOutputs hub0 outs₁) cid)
  rw [received, hclients, addClient, hcl, hreplay]
  simp [List.lookup]

theorem replay_completeness_capped_witness :
    sumLens [[1, 2]] ≤ MAX_SCROLLBACK ∧
    received (runOutputs (addClient (runOutputs hub0 [[1, 2]]) 0) [[3]]) 0
      = some (([[1, 2]] : List (List Nat)).flatten ++
          ([[3]] : List (List Nat)).flatten) :=
  ⟨by norm_num [sumLens, MAX_SCROLLBACK],
    replay_completeness_capped [[1, 2]] [[3]] 0 (by norm_num [sumLens, MAX_SCROLLBACK])⟩

/-- A single chunk filling the whole 512 KiB cap. -/
def bigChunk : List Nat := List.replicate MAX_SCROLLBACK 0

theorem bigChunk_length : bigChunk.length = MAX_SCROLLBACK :=
  List.length_replicate _ _

/-- After a chunk that fills the cap exactly, appending one more byte evicts
the older chunk: only `[[1]]` (one byte) survives. Stated for an arbitrary
cap-sized chunk so the proof never inspects its structure. -/
theorem replay_overflow_generic (c : List Nat) (hc : c.length = MAX_SCROLLBACK) :
    received (addClient (runOutputs hub0 [c, [1]]) 7) 7 = some [1] := by
  have e1 : appendScrollback (([] : List (List Nat)), 0) c
      = ([c], MAX_SCROLLBACK) := by
    rw [appendScrollback]
    simp only [List.nil_append, Nat.zero_add, hc]
    exact trimScrollback_id _ _ le_rfl
  have e2 : appendScrollback ([c], MAX_SCROLLBACK) [1] = ([[1]], 1) := by
    rw [appendScrollback]
    simp only [List.cons_append, List.nil_append]
    rw [trimScrollback, if_pos ⟨by simp, by simp⟩]
    rw [show MAX_SCROLLBACK + [1].length - c.length = 1 by simp [hc]]
    exact trimScrollback_id _ _ (by norm_num [MAX_SCROLLBACK])
  have s1 : hubOutput hub0 c = ⟨[c], MAX_SCROLLBACK, []⟩ := by
    rw [hubOutput]
    rw [show (hub0.chunks, hub0.size) = (([] : List (List Nat)), 0) from rfl, e1]
    rfl
  have s2 : runOutputs hub0 [c, [1]] = ⟨[[1]], 1, []⟩ := by
    rw [runOutputs, s1, runOutputs, runOutputs, hubOutput]
    rw [show ((Hub.mk [c] MAX_SCROLLBACK []).chunks,
        (Hub.mk [c] MAX_SCROLLBACK []).size)
      = ([c], MAX_SCROLLBACK) from rfl, e2]
    rfl
  rw [s2, addClient]
  simp [received, List.lookup, getScrollbackBuffer]

/-- The surviving single byte is not the full `MAX_SCROLLBACK + 1` bytes. -/
theorem replay_overflow_ne (c : List Nat) (hc : c.length = MAX_SCROLLBACK) :
    (some [1] : Option (List Nat)) ≠ some (([c, [1]] : List (List Nat)).flatten) := by
  intro hcontra
  have h' := Option.some.inj hcontra
  have hl := congrArg List.length h'
  simp only [List.flatten_cons, List.flatten_nil, List.length_append,
    List.length_cons, List.length_nil, hc, List.append_nil] at hl
  norm_num [MAX_SCROLLBACK] at hl

/-- C1 counterexample: after `MAX_SCROLLBACK + 1` bytes of output, produced as
two chunks, registration replays only the single surviving byte — not the full
`N` bytes the claim promises — because the first chunk was evicted. -/
theorem replay_exact_bytes_counterexample :
    received (addClient (runOutputs hub0 [bigChunk, [1]]) 7) 7 = some [1] ∧
    received (addClient (runOutputs hub0 [bigChunk, [1]]) 7) 7
      ≠ some (([bigChunk, [1]] : List (List Nat)).flatten) := by
  refine ⟨replay_overflow_generic bigChunk bigChunk_length, ?_⟩
  rw [replay_overflow_generic bigChunk bigChunk_length]
  exact replay_overflow_ne bigChunk bigChunk_length

/-! ## Auth gatekeeper (src/src/ssh-server.ts)

Embeds the per-IP auth failure tracking (`authFailures`, `recordAuthFailure`,
`isLockedOut`, `clearAuthFailures`) and the `authentication` event handler.
The `authFailures` map is a function from source identity to an optional
record; `Date.now()` is an explicit `now : Nat` in milliseconds. The handler's
three observable verdicts are `Accept` (ctx.accept), `Reject` (ctx.reject
after a plain failure or a non-password method) and `RejectLockedOut`
(ctx.reject on the locked-out path, or on the failure that reaches the
threshold — the code's `recordAuthFailure` returning `true`). `timingSafeEqual`
is modelled by its result (byte equality on equal-length inputs); whether the
handler invokes it is tracked explicitly for the constant-time claim. -/

def MAX_AUTH_FAILURES : Nat := 5

def AUTH_LOCKOUT_MS : Nat := 60000

structure AuthRecord where
  count : Nat
  lockedUntil : Nat
deriving DecidableEq

def AuthMap : Type := String → Option AuthRecord

def emptyAuthMap : AuthMap := fun _ => none

/-- `authFailures.set(ip, record)`. -/
def setAuth (m : AuthMap) (ip : String) (r : AuthRecord) : AuthMap :=
  fun x => if x = ip then some r else m x

/-- `authFailures.delete(ip)`. -/
def deleteAuth (m : AuthMap) (ip : String) : AuthMap :=
  fun x => if x = ip then none else m x

/-- `recordAuthFailure(ip)`: returns whether the source is now locked out,
together with the updated map. -/
def recordAuthFailure (m : AuthMap) (ip : String) (now : Nat) : Bool × AuthMap :=
  let record0 := (m ip).getD ⟨0, 0⟩
  let record1 : AuthRecord :=
    if now > record0.lockedUntil ∧ record0.lockedUntil > 0 then ⟨0, 0⟩ else record0
  let record2 : AuthRecord := ⟨record1.count + 1, record1.lockedUntil⟩
  if record2.count ≥ MAX_AUTH_FAILURES then
    (true, setAuth m ip ⟨record2.count, now + AUTH_LOCKOUT_MS⟩)
  else
    (false, setAuth m ip record2)

/-- `isLockedOut(ip)`: lazily expires an elapsed lockout (deleting the
record), then reports whether the failure count has reached the threshold.
Returns the verdict together with the (possibly changed) map. -/
def isLockedOut (m : AuthMap) (ip : String) (now : Nat) : Bool × AuthMap :=
  match m ip with
  | none => (false, m)
  | some record =>
    if now > record.lockedUntil ∧ record.lockedUntil > 0 then
      (false, deleteAuth m ip)
    else
      (decide (record.count ≥ MAX_AUTH_FAILURES), m)

/-- `clearAuthFailures(ip)`. -/
def clearAuthFailures (m : AuthMap) (ip : String) : AuthMap := deleteAuth m ip

/-- Result of `crypto.timingSafeEqual` on equal-length buffers. -/
def timingSafeEqual (a b : List Nat) : Bool := a == b

inductive AuthOutcome
  | Accept
  | Reject
  | RejectLockedOut
deriving DecidableEq

structure EvalResult where
  outcome : AuthOutcome
  map : AuthMap
  comparatorInvoked : Bool

/-- The `authentication` handler: no-auth mode accepts unconditionally;
otherwise check lockout, then for the password method do the length-checked
short-circuit comparison (`input.length === expected.length &&
timingSafeEqual(...)`), clearing failures on success and recording a failure
otherwise; non-password methods are rejected outright. -/
def evaluate (expectedCredential : Option (List Nat)) (m : AuthMap) (ip : String)
    (method : String) (supplied : List Nat) (now : Nat) : EvalResult :=
  match expectedCredential with
  | none => ⟨.Accept, m, false⟩
  | some expected =>
    let lock := isLockedOut m ip now
    if lock.1 then ⟨.RejectLockedOut, lock.2, false⟩
    else if method = "password" then
      if supplied.length = expected.length then
        if timingSafeEqual supplied expected then
          ⟨.Accept, clearAuthFailures lock.2 ip, true⟩
        else
          let r1 := recordAuthFailure lock.2 ip now
          ⟨if r1.1 then .RejectLockedOut else .Reject, r1.2, true⟩
      else
        let r1 := recordAuthFailure lock.2 ip now
        ⟨if r1.1 then .RejectLockedOut else .Reject, r1.2, false⟩
    else ⟨.Reject, lock.2, false⟩

/-- A sequence of authentication attempts from one source, threading the map:
each attempt is a (method, credential, time) triple. -/
def runAuth (expected : Option (List Nat)) (ip : String) (m : AuthMap) :
    List (String × List Nat × Nat) → List AuthOutcome × AuthMap
  | [] => ([], m)
  | (method, supplied, now) :: rest =>
    let r := evaluate expected m ip method supplied now
    let tail1 := runAuth expected ip r.map rest
    (r.outcome :: tail1.1, tail1.2)

/-- C7: in no-auth mode (`expectedCredential = null`) every attempt is
accepted — any source identity, any method, any credential, any prior lockout
state — and the auth-failure map is not consulted or modified. -/
theorem no_auth_always_accept (m : AuthMap) (ip method : String)
    (supplied : List Nat) (now : Nat) :
    evaluate none m ip method supplied now = ⟨.Accept, m, false⟩ := rfl

theorem isLockedOut_fresh (m : AuthMap) (ip : String) (now c : Nat)
    (hm : m ip = some ⟨c, 0⟩ ∨ (m ip = none ∧ c = 0))
    (hc : c < MAX_AUTH_FAILURES) :
    isLockedOut m ip now = (false, m) := by
  rcases hm with hm | ⟨hm, -⟩
  · rw [isLockedOut, hm]
    simp only []
    rw [if_neg (by simp)]
    simp only [Prod.mk.injEq, decide_eq_false_iff_not, not_le]
    exact ⟨hc, trivial⟩
  · rw [isLockedOut, hm]

theorem recordAuthFailure_fresh (m : AuthMap) (ip : String) (now c : Nat)
    (hm : m ip = some ⟨c, 0⟩ ∨ (m ip = none ∧ c = 0)) :
    recordAuthFailure m ip now =
      (decide (c + 1 ≥ MAX_AUTH_FAILURES),
        setAuth m ip ⟨c + 1,
          if c + 1 ≥ MAX_AUTH_FAILURES then now + AUTH_LOCKOUT_MS else 0⟩) := by
  by_cases h5 : c + 1 ≥ MAX_AUTH_FAILURES
  · rcases hm with hm | ⟨hm, hc0⟩
    · simp [recordAuthFailure, hm, h5]
    · subst hc0
      simp [recordAuthFailure, hm, h5]
  · rcases hm with hm | ⟨hm, hc0⟩
    · simp [recordAuthFailure, hm, h5]
    · subst hc0
      simp [recordAuthFailure, hm, h5]

/-- One wrong password attempt from a source with `c` prior failures and no
active lockout: the failure is recorded; the verdict is `Reject` below the
threshold and `RejectLockedOut` when the threshold is reached, in which case
the lockout deadline is set to `now + AUTH_LOCKOUT_MS`. -/
theorem evaluate_wrong (pw w : List Nat) (hw : w ≠ pw) (m : AuthMap)
    (ip : String) (now c : Nat) (hc : c < MAX_AUTH_FAILURES)
    (hm : m ip = some ⟨c, 0⟩ ∨ (m ip = none ∧ c = 0)) :
    evaluate (some pw) m ip "password" w now =
      ⟨if c + 1 ≥ MAX_AUTH_FAILURES then .RejectLockedOut else .Reject,
        setAuth m ip ⟨c + 1,
          if c + 1 ≥ MAX_AUTH_FAILURES then now + AUTH_LOCKOUT_MS else 0⟩,
        decide (w.length = pw.length)⟩ := by
  have hlock := isLockedOut_fresh m ip now c hm hc
  have hrec := recordAuthFailure_fresh m ip now c hm
  by_cases hlen : w.length = pw.length
  · have hts : timingSafeEqual w pw = false := by
      simp [timingSafeEqual]
      exact hw
    by_cases h5 : c + 1 ≥ MAX_AUTH_FAILURES
    · simp [evaluate, hlock, hlen, hts, hrec, h5]
    · simp [evaluate, hlock, hlen, hts, hrec, h5]
  · by_cases h5 : c + 1 ≥ MAX_AUTH_FAILURES
    · simp [evaluate, hlock, hlen, hrec, h5]
    · simp [evaluate, hlock, hlen, hrec, h5]

/-- Five consecutive password attempts with the wrong credential `w` from a
fresh source `ip`, at times `t1..t5`. -/
def lockoutRun (pw w : List Nat) (ip : String) (t1 t2 t3 t4 t5 : Nat) :
    List AuthOutcome × AuthMap :=
  runAuth (some pw) ip emptyAuthMap
    [("password", w, t1), ("password", w, t2), ("password", w, t3),
      ("password", w, t4), ("password", w, t5)]

/-- C3: with auth enabled, five consecutive wrong credentials yield `Reject`
four times then `RejectLockedOut`, setting the lockout deadline to
`t5 + 60000`; any sixth attempt at `t6 ≤ t5 + 60000` (any method, any
credential) yields `RejectLockedOut` with the map untouched (no increment, no
window extension); once the window has elapsed (`t7 > t5 + 60000`) the record
is lazily reset and a correct credential is accepted. -/
theorem auth_lockout_sequence (pw w s6 : List Nat) (ip m6 : String)
    (hw : w ≠ pw) (t1 t2 t3 t4 t5 t6 t7 : Nat)
    (h6 : t6 ≤ t5 + AUTH_LOCKOUT_MS) (h7 : t5 + AUTH_LOCKOUT_MS < t7) :
    (lockoutRun pw w ip t1 t2 t3 t4 t5).1 =
      [.Reject, .Reject, .Reject, .Reject, .RejectLockedOut] ∧
    (lockoutRun pw w ip t1 t2 t3 t4 t5).2 ip = some ⟨5, t5 + AUTH_LOCKOUT_MS⟩ ∧
    (evaluate (some pw) (lockoutRun pw w ip t1 t2 t3 t4 t5).2 ip m6 s6 t6).outcome
      = .RejectLockedOut ∧
    (evaluate (some pw) (lockoutRun pw w ip t1 t2 t3 t4 t5).2 ip m6 s6 t6).map
      = (lockoutRun pw w ip t1 t2 t3 t4 t5).2 ∧
    (evaluate (some pw) (lockoutRun pw w ip t1 t2 t3 t4 t5).2 ip "password" pw t7).outcome
      = .Accept ∧
    (evaluate (some pw) (lockoutRun pw w ip t1 t2 t3 t4 t5).2 ip "password" pw t7).map ip
      = none := by
  have hfail : ∀ (m : AuthMap) (now c : Nat),
      m ip = some ⟨c, 0⟩ ∨ (m ip = none ∧ c = 0) → c + 1 < MAX_AUTH_FAILURES →
      evaluate (some pw) m ip "password" w now =
        ⟨.Reject, setAuth m ip ⟨c + 1, 0⟩, decide (w.length = pw.length)⟩ := by
    intro m now c hm hlt
    have := evaluate_wrong pw w hw m ip now c (by omega) hm
    rw [if_neg (by omega), if_neg (by omega)] at this
    exact this
  have e1 := hfail emptyAuthMap t1 0 (Or.inr ⟨rfl, rfl⟩)
    (by norm_num [MAX_AUTH_FAILURES])
  have e2 := hfail (setAuth emptyAuthMap ip ⟨1, 0⟩) t2 1
    (Or.inl (by simp [setAuth])) (by norm_num [MAX_AUTH_FAILURES])
  have e3 := hfail (setAuth (setAuth emptyAuthMap ip ⟨1, 0⟩) ip ⟨2, 0⟩) t3 2
    (Or.inl (by simp [setAuth])) (by norm_num [MAX_AUTH_FAILURES])
  have e4 := hfail (setAuth (setAuth (setAuth emptyAuthMap ip ⟨1, 0⟩) ip ⟨2, 0⟩)
      ip ⟨3, 0⟩) t4 3
    (Or.inl (by simp [setAuth])) (by norm_num [MAX_AUTH_FAILURES])
  have e5 : evaluate (some pw)
      (setAuth (setAuth (setAuth (setAuth emptyAuthMap ip ⟨1, 0⟩) ip ⟨2, 0⟩)
        ip ⟨3, 0⟩) ip ⟨4, 0⟩) ip "password" w t5 =
      ⟨.RejectLockedOut,
        setAuth (setAuth (setAuth (setAuth (setAuth emptyAuthMap ip ⟨1, 0⟩)
          ip ⟨2, 0⟩) ip ⟨3, 0⟩) ip ⟨4, 0⟩) ip ⟨5, t5 + AUTH_LOCKOUT_MS⟩,
        decide (w.length = pw.length)⟩ := by
    have := evaluate_wrong pw w hw
      (setAuth (setAuth (setAuth (setAuth emptyAuthMap ip ⟨1, 0⟩) ip ⟨2, 0⟩)
        ip ⟨3, 0⟩) ip ⟨4, 0⟩) ip t5 4
      (by norm_num [MAX_AUTH_FAILURES]) (Or.inl (by simp [setAuth]))
    rw [if_pos (by norm_num [MAX_AUTH_FAILURES]),
      if_pos (by norm_num [MAX_AUTH_FAILURES])] at this
    exact this
  have hrun : lockoutRun pw w ip t1 t2 t3 t4 t5 =
      ([.Reject, .Reject, .Reject, .Reject, .RejectLockedOut],
        setAuth (setAuth (setAuth (setAuth (setAuth emptyAuthMap ip ⟨1, 0⟩)
          ip ⟨2, 0⟩) ip ⟨3, 0⟩) ip ⟨4, 0⟩) ip ⟨5, t5 + AUTH_LOCKOUT_MS⟩) := by
    rw [lockoutRun, runAuth, e1]
    simp only []
    rw [runAuth, e2]
    simp only []
    rw [runAuth, e3]
    simp only []
    rw [runAuth, e4]
    simp only []
    rw [runAuth, e5]
    simp only [runAuth]
  rw [hrun]
  simp only []
  have hM5 : (setAuth (setAuth (setAuth (setAuth (setAuth emptyAuthMap ip ⟨1, 0⟩)
      ip ⟨2, 0⟩) ip ⟨3, 0⟩) ip ⟨4, 0⟩) ip ⟨5, t5 + AUTH_LOCKOUT_MS⟩) ip
      = some ⟨5, t5 + AUTH_LOCKOUT_MS⟩ := by simp [setAuth]
  have hlock6 : isLockedOut (setAuth (setAuth (setAuth (setAuth (setAuth
      emptyAuthMap ip ⟨1, 0⟩) ip ⟨2, 0⟩) ip ⟨3, 0⟩) ip ⟨4, 0⟩)
      ip ⟨5, t5 + AUTH_LOCKOUT_MS⟩) ip t6
      = (true, setAuth (setAuth (setAuth (setAuth (setAuth emptyAuthMap
          ip ⟨1, 0⟩) ip ⟨2, 0⟩) ip ⟨3, 0⟩) ip ⟨4, 0⟩)
          ip ⟨5, t5 + AUTH_LOCKOUT_MS⟩) := by
    have hnot : ¬ (t5 + AUTH_LOCKOUT_MS < t6) := not_lt.mpr h6
    simp [isLockedOut, hM5, hnot, MAX_AUTH_FAILURES]
  have hlock7 : isLockedOut (setAuth (setAuth (setAuth (setAuth (setAuth
      emptyAuthMap ip ⟨1, 0⟩) ip ⟨2, 0⟩) ip ⟨3, 0⟩) ip ⟨4, 0⟩)
      ip ⟨5, t5 + AUTH_LOCKOUT_MS⟩) ip t7
      = (false, deleteAuth (setAuth (setAuth (setAuth (setAuth (setAuth
          emptyAuthMap ip ⟨1, 0⟩) ip ⟨2, 0⟩) ip ⟨3, 0⟩) ip ⟨4, 0⟩)
          ip ⟨5, t5 + AUTH_LOCKOUT_MS⟩) ip) := by
    have hpos : 0 < t5 + AUTH_LOCKOUT_MS := by
      have h0 : (0 : Nat) < AUTH_LOCKOUT_MS := by norm_num [AUTH_LOCKOUT_MS]
      omega
    simp [isLockedOut, hM5, h7, hpos]
  refine ⟨trivial, hM5, ?_, ?_, ?_, ?_⟩
  · simp [evaluate, hlock6]
  · simp [evaluate, hlock6]
  · simp [evaluate, hlock7, timingSafeEqual]
  · simp [evaluate, hlock7, timingSafeEqual, clearAuthFailures, deleteAuth]

theorem auth_lockout_sequence_witness :
    ([0] : List Nat) ≠ [1] ∧ (60000 : Nat) ≤ 0 + AUTH_LOCKOUT_MS ∧
    (0 : Nat) + AUTH_LOCKOUT_MS < 60001 ∧
    ((lockoutRun [1] [0] "a" 0 0 0 0 0).1 =
        [.Reject, .Reject, .Reject, .Reject, .RejectLockedOut] ∧
      (lockoutRun [1] [0] "a" 0 0 0 0 0).2 "a" = some ⟨5, 0 + AUTH_LOCKOUT_MS⟩ ∧
      (evaluate (some [1]) (lockoutRun [1] [0] "a" 0 0 0 0 0).2 "a" "none" [9]
          60000).outcome = .RejectLockedOut ∧
      (evaluate (some [1]) (lockoutRun [1] [0] "a" 0 0 0 0 0).2 "a" "none" [9]
          60000).map = (lockoutRun [1] [0] "a" 0 0 0 0 0).2 ∧
      (evaluate (some [1]) (lockoutRun [1] [0] "a" 0 0 0 0 0).2 "a" "password" [1]
          60001).outcome = .Accept ∧
      (evaluate (some [1]) (lockoutRun [1] [0] "a" 0 0 0 0 0).2 "a" "password" [1]
          60001).map "a" = none) :=
  ⟨by decide, by norm_num [AUTH_LOCKOUT_MS], by norm_num [AUTH_LOCKOUT_MS],
    auth_lockout_sequence [1] [0] [9] "a" "none" (by decide) 0 0 0 0 0 60000 60001
      (by norm_num [AUTH_LOCKOUT_MS]) (by norm_num [AUTH_LOCKOUT_MS])⟩

/-- C9 (amended): with auth enabled, the source not locked out and a supplied
credential of a different length than expected, the constant-time comparator
is never invoked (the `&&` short-circuits on the length check) and the
verdict is the recorded-failure verdict: `Reject` below the lockout
threshold, `RejectLockedOut` when this failure reaches it. -/
theorem length_mismatch_no_compare (pw supplied : List Nat) (m : AuthMap)
    (ip : String) (now : Nat) (hnl : (isLockedOut m ip now).1 = false)
    (hlen : supplied.length ≠ pw.length) :
    (evaluate (some pw) m ip "password" supplied now).comparatorInvoked = false ∧
    (evaluate (some pw) m ip "password" supplied now).outcome =
      (if (recordAuthFailure (isLockedOut m ip now).2 ip now).1
        then AuthOutcome.RejectLockedOut else .Reject) ∧
    (evaluate (some pw) m ip "password" supplied now).map =
      (recordAuthFailure (isLockedOut m ip now).2 ip now).2 := by
  simp [evaluate, hnl, hlen]

theorem length_mismatch_no_compare_witness :
    (isLockedOut emptyAuthMap "a" 0).1 = false ∧
    ([1] : List Nat).length ≠ ([1, 2] : List Nat).length ∧
    ((evaluate (some [1, 2]) emptyAuthMap "a" "password" [1] 0).comparatorInvoked
        = false ∧
      (evaluate (some [1, 2]) emptyAuthMap "a" "password" [1] 0).outcome =
        (if (recordAuthFailure (isLockedOut emptyAuthMap "a" 0).2 "a" 0).1
          then AuthOutcome.RejectLockedOut else .Reject) ∧
      (evaluate (some [1, 2]) emptyAuthMap "a" "password" [1] 0).map =
        (recordAuthFailure (isLockedOut emptyAuthMap "a" 0).2 "a" 0).2) :=
  ⟨rfl, by decide,
    length_mismatch_no_compare [1, 2] [1] emptyAuthMap "a" 0 rfl (by decide)⟩

/-- A map in which source "a" already has four recorded failures and no
active lockout window. -/
def fourFailures : AuthMap := setAuth emptyAuthMap "a" ⟨4, 0⟩

/-- C9 counterexample: with four prior failures, a wrong-length credential is
the fifth failure — the comparator is still skipped, but the verdict is
`RejectLockedOut`, not `Reject` as the claim states. -/
theorem length_mismatch_reject_counterexample :
    (isLockedOut fourFailures "a" 100).1 = false ∧
    (evaluate (some [1, 2]) fourFailures "a" "password" [1] 100).comparatorInvoked
      = false ∧
    (evaluate (some [1, 2]) fourFailures "a" "password" [1] 100).outcome
      = .RejectLockedOut ∧
    (evaluate (some [1, 2]) fourFailures "a" "password" [1] 100).outcome
      ≠ .Reject := by
  refine ⟨?_, ?_, ?_, ?_⟩ <;> decide

/-- C10 (amended): with auth enabled, the source not locked out, and a
non-password credential method, the verdict is `Reject`, the comparator is
not invoked and no failure is recorded: the map is exactly what the lockout
check left (which deletes the record only when an expired lockout is lazily
reset), so the source's failure count never increases — from this state a
non-password probe cannot progress the source toward lockout. -/
theorem non_password_frame (pw supplied : List Nat) (m : AuthMap)
    (ip method : String) (now : Nat) (hm : method ≠ "password")
    (hnl : (isLockedOut m ip now).1 = false) :
    (evaluate (some pw) m ip method supplied now).outcome = .Reject ∧
    (evaluate (some pw) m ip method supplied now).comparatorInvoked = false ∧
    (evaluate (some pw) m ip method supplied now).map = (isLockedOut m ip now).2 ∧
    ((evaluate (some pw) m ip method supplied now).map ip = m ip ∨
      (evaluate (some pw) m ip method supplied now).map ip = none) ∧
    (((evaluate (some pw) m ip method supplied now).map ip).elim 0 AuthRecord.count
      ≤ ((m ip).elim 0 AuthRecord.count)) := by
  have hmap : (evaluate (some pw) m ip method supplied now) =
      ⟨.Reject, (isLockedOut m ip now).2, false⟩ := by
    simp only [evaluate, hnl]
    rw [if_neg (by simp [hnl]), if_neg hm]
  rw [hmap]
  have hcases : (isLockedOut m ip now).2 ip = m ip ∨
      (isLockedOut m ip now).2 ip = none := by
    cases hrec : m ip with
    | none =>
      have hval : isLockedOut m ip now = (false, m) := by
        rw [isLockedOut, hrec]
      rw [hval]
      exact Or.inl hrec
    | some record =>
      by_cases hexp : now > record.lockedUntil ∧ record.lockedUntil > 0
      · have hval : isLockedOut m ip now = (false, deleteAuth m ip) := by
          rw [isLockedOut, hrec]
          simp only []
          rw [if_pos hexp]
        rw [hval]
        exact Or.inr (by simp [deleteAuth])
      · have hval : isLockedOut m ip now =
            (decide (record.count ≥ MAX_AUTH_FAILURES), m) := by
          rw [isLockedOut, hrec]
          simp only []
          rw [if_neg hexp]
        rw [hval]
        exact Or.inl hrec
  refine ⟨rfl, rfl, rfl, hcases, ?_⟩
  rcases hcases with hc | hc
  · show ((isLockedOut m ip now).2 ip).elim 0 AuthRecord.count
      ≤ (m ip).elim 0 AuthRecord.count
    rw [hc]
  · show ((isLockedOut m ip now).2 ip).elim 0 AuthRecord.count
      ≤ (m ip).elim 0 AuthRecord.count
    rw [hc]
    simp

theorem non_password_frame_witness :
    ("none" : String) ≠ "password" ∧
    (isLockedOut fourFailures "a" 100).1 = false ∧
    ((evaluate (some [1]) fourFailures "a" "none" [2] 100).outcome = .Reject ∧
      (evaluate (some [1]) fourFailures "a" "none" [2] 100).comparatorInvoked
        = false ∧
      (evaluate (some [1]) fourFailures "a" "none" [2] 100).map
        = (isLockedOut fourFailures "a" 100).2 ∧
      ((evaluate (some [1]) fourFailures "a" "none" [2] 100).map "a"
          = fourFailures "a" ∨
        (evaluate (some [1]) fourFailures "a" "none" [2] 100).map "a" = none) ∧
      (((evaluate (some [1]) fourFailures "a" "none" [2] 100).map "a").elim 0
          AuthRecord.count ≤ ((fourFailures "a").elim 0 AuthRecord.count))) :=
  ⟨by decide, by decide,
    non_password_frame [1] [2] fourFailures "a" "none" 100 (by decide) (by decide)⟩

/-- A map in which source "a" holds an expired lockout record: five failures,
window ended at time 60000. -/
def expiredLockout : AuthMap := setAuth emptyAuthMap "a" ⟨5, 60000⟩

/-- C10 counterexample: at time 60001 the source is no longer locked out, yet
a non-password attempt does change the source's map entry — the lockout check
lazily deletes the expired record — contradicting "left unchanged". -/
theorem non_password_map_changed_counterexample :
    (isLockedOut expiredLockout "a" 60001).1 = false ∧
    (evaluate (some [1]) expiredLockout "a" "none" [2] 60001).outcome = .Reject ∧
    expiredLockout "a" = some ⟨5, 60000⟩ ∧
    (evaluate (some [1]) expiredLockout "a" "none" [2] 60001).map "a" = none := by
  refine ⟨?_, ?_, ?_, ?_⟩ <;> decide

/-! ## Connection manager (src/src/ssh-server.ts, `startSSHServer`)

Embeds the connection handler's admission control. The handler keeps a single
mutable counter `activeConnections`. On a new connection it refuses (closing
the client, registering no handlers) when `activeConnections >=
maxConnections`; otherwise it increments the counter and registers `close` and
`error` handlers, each of which decrements the counter. A client sink
(`termClient`) is created only later, on the authenticated session's `shell`
request. The counter is an `Int` (a JavaScript number can go below zero).
`handlers` is the set of accepted connections whose close/error handlers are
registered; `sinked` is the set of connections whose shell sink exists. -/

def DEFAULT_MAX_CONNECTIONS : Nat := 10

inductive ConnectOutcome
  | Admit
  | Refuse
deriving DecidableEq

structure ConnMgrState where
  active : Int
  handlers : List Nat
  sinked : List Nat
deriving DecidableEq

def connInit : ConnMgrState := ⟨0, [], []⟩

/-- The connection callback's admission check: refuse (no state change, no
handlers registered) iff `activeConnections >= maxConnections`, else count
the connection and register its handlers. -/
def onConnect (maxConnections : Nat) (st : ConnMgrState) (cid : Nat) :
    ConnectOutcome × ConnMgrState :=
  if st.active ≥ (maxConnections : Int) then (.Refuse, st)
  else (.Admit, { st with active := st.active + 1, handlers := cid :: st.handlers })

/-- The `shell` request of an authenticated session: creates the client sink.
Does not touch `activeConnections`. -/
def onShell (st : ConnMgrState) (cid : Nat) : ConnMgrState :=
  if cid ∈ st.handlers then { st with sinked := cid :: st.sinked } else st

/-- The client `close` handler: decrements `activeConnections` (and the
stream close removes the sink). Runs only for accepted connections — the
refusal path returned before registering it. A closed socket emits no further
events, so the connection leaves `handlers`. -/
def onClose (st : ConnMgrState) (cid : Nat) : ConnMgrState :=
  if cid ∈ st.handlers then
    { st with
      active := st.active - 1
      handlers := st.handlers.erase cid
      sinked := st.sinked.erase cid }
  else st

/-- The client `error` handler: also decrements `activeConnections`. The
socket is not yet closed — its `close` event still follows — so the
connection stays in `handlers`. -/
def onError (st : ConnMgrState) (cid : Nat) : ConnMgrState :=
  if cid ∈ st.handlers then { st with active := st.active - 1 } else st

inductive ConnEvent
  | connect (cid : Nat)
  | shell (cid : Nat)
  | close (cid : Nat)
  | error (cid : Nat)
deriving DecidableEq

def connStep (maxConnections : Nat) (st : ConnMgrState) :
    ConnEvent → ConnMgrState × Option ConnectOutcome
  | .connect cid => ((onConnect maxConnections st cid).2,
      some (onConnect maxConnections st cid).1)
  | .shell cid => (onShell st cid, none)
  | .close cid => (onClose st cid, none)
  | .error cid => (onError st cid, none)

/-- Run a sequence of transport events, collecting admission outcomes. -/
def runConn (maxConnections : Nat) (st : ConnMgrState) :
    List ConnEvent → ConnMgrState × List ConnectOutcome
  | [] => (st, [])
  | e :: rest =>
    ((runConn maxConnections (connStep maxConnections st e).1 rest).1,
      (connStep maxConnections st e).2.toList ++
        (runConn maxConnections (connStep maxConnections st e).1 rest).2)

/-- Events that terminate no connection. -/
def nonTermEvent : ConnEvent → Bool
  | .connect _ => true
  | .shell _ => true
  | .close _ => false
  | .error _ => false

theorem runConn_active_admits (maxConnections : Nat) (evs : List ConnEvent) :
    ∀ st : ConnMgrState, evs.all nonTermEvent = true →
      (runConn maxConnections st evs).1.active =
        st.active + (runConn maxConnections st evs).2.countP (· == .Admit) := by
  induction evs with
  | nil =>
    intro st _
    simp [runConn]
  | cons e rest ih =>
    intro st hall
    simp only [List.all_cons, Bool.and_eq_true] at hall
    obtain ⟨he, hrest⟩ := hall
    cases e with
    | connect cid =>
      rw [runConn]
      by_cases hcap : st.active ≥ (maxConnections : Int)
      · have hstep : connStep maxConnections st (.connect cid) = (st, some .Refuse) := by
          simp [connStep, onConnect, hcap]
        rw [hstep]
        have := ih st hrest
        simp [this, List.countP_cons]
      · have hstep : connStep maxConnections st (.connect cid) =
            ({ st with active := st.active + 1, handlers := cid :: st.handlers },
              some .Admit) := by
          simp [connStep, onConnect, hcap]
        rw [hstep]
        have := ih { st with active := st.active + 1, handlers := cid :: st.handlers }
          hrest
        simp [this, List.countP_cons]
        omega
    | shell cid =>
      rw [runConn]
      have hactive : (onShell st cid).active = st.active := by
        rw [onShell]
        by_cases hmem : cid ∈ st.handlers
        · rw [if_pos hmem]
        · rw [if_neg hmem]
      have := ih (onShell st cid) hrest
      simp [connStep, this, hactive]
    | close cid => simp [nonTermEvent] at he
    | error cid => simp [nonTermEvent] at he

/-- C4 (amended): a connection counts against the cap from the moment it is
accepted (passes the capacity check) until its close/error event, regardless
of authentication or sink creation: after any sequence of connection and
shell events the counter equals the number of admitted connections (refused
ones never count), and the next connection is refused iff that counter has
reached the cap. The default cap is 10. -/
theorem connection_cap_counts_accepted (maxConnections : Nat)
    (evs : List ConnEvent) (cid : Nat) (hall : evs.all nonTermEvent = true) :
    (runConn maxConnections connInit evs).1.active =
      (runConn maxConnections connInit evs).2.countP (· == .Admit) ∧
    ((onConnect maxConnections (runConn maxConnections connInit evs).1 cid).1
        = .Refuse ↔
      (maxConnections : Int) ≤ (runConn maxConnections connInit evs).1.active) ∧
    DEFAULT_MAX_CONNECTIONS = 10 := by
  refine ⟨?_, ?_, rfl⟩
  · have := runConn_active_admits maxConnections evs connInit hall
    simpa [connInit] using this
  · constructor
    · intro h
      by_contra hlt
      rw [onConnect, if_neg hlt] at h
      exact ConnectOutcome.noConfusion h
    · intro h
      rw [onConnect, if_pos h]

theorem connection_cap_counts_accepted_witness :
    ([ConnEvent.connect 1, ConnEvent.connect 2].all nonTermEvent = true) ∧
    ((runConn 1 connInit [ConnEvent.connect 1, ConnEvent.connect 2]).1.active =
        (runConn 1 connInit [ConnEvent.connect 1,
          ConnEvent.connect 2]).2.countP (· == .Admit) ∧
      ((onConnect 1 (runConn 1 connInit [ConnEvent.connect 1,
            ConnEvent.connect 2]).1 3).1 = .Refuse ↔
        ((1 : Nat) : Int) ≤ (runConn 1 connInit [ConnEvent.connect 1,
          ConnEvent.connect 2]).1.active) ∧
      DEFAULT_MAX_CONNECTIONS = 10) :=
  ⟨by decide,
    connection_cap_counts_accepted 1 [ConnEvent.connect 1, ConnEvent.connect 2] 3
      (by decide)⟩

/-- C4 counterexample: ten connections that never authenticate (no sink
exists anywhere) already exhaust the default cap — the 11th connection is
refused even though the number of admitted slots with a non-absent sink is
zero, so pending (not-yet-authenticated) connections do consume capacity. -/
theorem pending_connections_consume_capacity :
    (runConn DEFAULT_MAX_CONNECTIONS connInit
        ((List.range 10).map ConnEvent.connect)).1.sinked.length = 0 ∧
    (onConnect DEFAULT_MAX_CONNECTIONS
        (runConn DEFAULT_MAX_CONNECTIONS connInit
          ((List.range 10).map ConnEvent.connect)).1 100).1 = .Refuse := by
  refine ⟨?_, ?_⟩ <;> decide

/-- C5: the trace of one accepted connection whose transport emits `error`
followed by `close` — the normal event order for a socket error. Both
handlers decrement, so the admitted count ends at -1 while zero admitted
connections remain open, and after two more admissions at cap 2 three
connections are simultaneously open. -/
theorem double_decrement_on_error_close :
    (runConn 2 connInit
        [ConnEvent.connect 1, ConnEvent.error 1, ConnEvent.close 1]).1.active
      = -1 ∧
    (runConn 2 connInit
        [ConnEvent.connect 1, ConnEvent.error 1,
          ConnEvent.close 1]).1.handlers.length = 0 ∧
    (runConn 2 connInit
        [ConnEvent.connect 1, ConnEvent.connect 2, ConnEvent.error 1,
          ConnEvent.close 1, ConnEvent.connect 3, ConnEvent.connect 4]).2
      = [.Admit, .Admit, .Admit, .Admit] ∧
    (runConn 2 connInit
        [ConnEvent.connect 1, ConnEvent.connect 2, ConnEvent.error 1,
          ConnEvent.close 1, ConnEvent.connect 3,
          ConnEvent.connect 4]).1.handlers.length = 3 := by
  refine ⟨?_, ?_, ?_, ?_⟩ <;> decide

/-! ## Supervisor / watchdog (startServices `watchdog` loop)

Embeds the restart loop: on each process exit it increments `restartCount`;
if the count exceeds `MAX_RESTARTS` it gives up, otherwise it waits
`min(1000 * 2 ^ restartCount, 60000)` milliseconds and re-invokes `attach`
when running in attach mode and the named tmux session still exists, else
`spawn`. Each exit event carries whether the external session exists at that
moment; the emitted action records the delay slept before the restart. -/

def MAX_RESTARTS : Nat := 10

inductive WatchAction
  | restartAttach (delay : Nat)
  | restartSpawn (delay : Nat)
  | giveUp
deriving DecidableEq

/-- The watchdog loop over a sequence of process-exit events (each tagged
with `hasTmuxSession(currentSessionName)` at restart time), starting from a
given `restartCount`. -/
def watchdogLoop (isAttachMode : Bool) : Nat → List Bool → List WatchAction
  | _, [] => []
  | restartCount, sessionExists :: rest =>
    let n := restartCount + 1
    if n > MAX_RESTARTS then [WatchAction.giveUp]
    else
      (if isAttachMode && sessionExists then
        WatchAction.restartAttach (min (1000 * 2 ^ n) 60000)
      else WatchAction.restartSpawn (min (1000 * 2 ^ n) 60000))
        :: watchdogLoop isAttachMode n rest

/-- C6: each restart attempt `n = count + 1 ≤ 10` sleeps
`min(1000 * 2 ^ n, 60000)` and re-invokes attach exactly when in attach mode
with the session still present, otherwise spawn; the delays of attempts 1..10
are 2000, 4000, 8000, 16000, 32000 then 60000 capped (so attempt 7 sleeps
60000); and after 10 restarts the 11th failure gives up with no further
restart attempted. -/
theorem watchdog_backoff_schedule (mode e : Bool) (count : Nat)
    (rest : List Bool) (h : count < MAX_RESTARTS) :
    watchdogLoop mode count (e :: rest) =
      (if mode && e then
        WatchAction.restartAttach (min (1000 * 2 ^ (count + 1)) 60000)
      else WatchAction.restartSpawn (min (1000 * 2 ^ (count + 1)) 60000))
        :: watchdogLoop mode (count + 1) rest ∧
    watchdogLoop mode MAX_RESTARTS (e :: rest) = [WatchAction.giveUp] ∧
    watchdogLoop false 0 (List.replicate 11 e) =
      [WatchAction.restartSpawn 2000, WatchAction.restartSpawn 4000,
        WatchAction.restartSpawn 8000, WatchAction.restartSpawn 16000,
        WatchAction.restartSpawn 32000, WatchAction.restartSpawn 60000,
        WatchAction.restartSpawn 60000, WatchAction.restartSpawn 60000,
        WatchAction.restartSpawn 60000, WatchAction.restartSpawn 60000,
        WatchAction.giveUp] := by
  refine ⟨?_, ?_, ?_⟩
  · rw [watchdogLoop]
    rw [if_neg (by simp only [MAX_RESTARTS] at h ⊢; omega)]
  · rw [watchdogLoop]
    rw [if_pos (by norm_num [MAX_RESTARTS])]
  · cases e <;> decide

theorem watchdog_backoff_schedule_witness :
    (0 : Nat) < MAX_RESTARTS ∧
    (watchdogLoop true 0 [true] =
      (if true && true then WatchAction.restartAttach (min (1000 * 2 ^ (0 + 1)) 60000)
      else WatchAction.restartSpawn (min (1000 * 2 ^ (0 + 1)) 60000))
        :: watchdogLoop true (0 + 1) [] ∧
    watchdogLoop true MAX_RESTARTS [true] = [WatchAction.giveUp] ∧
    watchdogLoop false 0 (List.replicate 11 true) =
      [WatchAction.restartSpawn 2000, WatchAction.restartSpawn 4000,
        WatchAction.restartSpawn 8000, WatchAction.restartSpawn 16000,
        WatchAction.restartSpawn 32000, WatchAction.restartSpawn 60000,
        WatchAction.restartSpawn 60000, WatchAction.restartSpawn 60000,
        WatchAction.restartSpawn 60000, WatchAction.restartSpawn 60000,
        WatchAction.giveUp]) :=
  ⟨by norm_num [MAX_RESTARTS],
    watchdog_backoff_schedule true true 0 [] (by norm_num [MAX_RESTARTS])⟩

/-! ## Terminal module write gate (terminal module `writeToTerminal`,
`spawnTerminal`, `killTerminal`)

The module keeps `terminal` (the pty handle, or null), `shellProc` and
`tmuxSession`. Because the guard in `writeToTerminal` checks only handle
nullity, the state must also record whether the underlying process is still
alive: nothing in the module nulls `terminal` when the process exits on its
own (the watchdog merely awaits `proc.exited` and respawns later, or gives
up), so a dead process can coexist with a non-null handle. The field
`procExited` records that environment fact; no module operation consults it.
`killTerminal` clears both handles (after the external tmux kill-session /
SIGTERM side effects, which are external-process calls outside this model).
Forwarded writes are returned as (handle, bytes) pairs. -/

structure TerminalModuleState where
  terminal : Option Nat
  shellProc : Option Nat
  tmuxSession : Option String
  procExited : Bool
deriving DecidableEq

/-- Module state before any spawn: every variable null. -/
def termInit : TerminalModuleState := ⟨none, none, none, false⟩

/-- `spawnTerminal(sessionName, cwd)`: overwrites the module variables with a
fresh live pty handle and process (the external spawn and the scrollback
reset — covered by the hub model above — are elided). -/
def spawnTerminal (h : Nat) (sessionName : String) : TerminalModuleState :=
  ⟨some h, some h, some sessionName, false⟩

/-- The underlying process terminates on its own. No module code runs on this
event — the watchdog observes `proc.exited` and only later respawns (or gives
up) — so every module variable, including the now-stale `terminal` handle, is
left untouched. -/
def processExit (st : TerminalModuleState) : TerminalModuleState :=
  { st with procExited := true }

inductive SessionState
  | Absent
  | Running
  | Exited
deriving DecidableEq

/-- The spec's TerminalSession state read off the module variables together
with the process-liveness fact: no handle is Absent; a handle over a live
process is Running (the spec's Starting collapses into this, the handle being
assigned in the same synchronous step of `spawnTerminal`); a handle whose
process has terminated is Exited. -/
def sessionState (st : TerminalModuleState) : SessionState :=
  match st.terminal with
  | none => SessionState.Absent
  | some _ => if st.procExited then SessionState.Exited else SessionState.Running

/-- `writeToTerminal(data)`: `if (terminal) terminal.write(data)`. Returns the
(unchanged) module state and the writes forwarded to the pty handle. The
guard checks only `terminal` — not whether the process behind it lives. -/
def writeToTerminal (st : TerminalModuleState) (data : List Nat) :
    TerminalModuleState × List (Nat × List Nat) :=
  match st.terminal with
  | some h => (st, [(h, data)])
  | none => (st, [])

/-- `killTerminal(opts)`: tears the session down and nulls the handles
(`terminal = null; shellProc = null`; `tmuxSession` is left as is). -/
def killTerminal (st : TerminalModuleState) (keepSession : Bool) :
    TerminalModuleState :=
  { st with terminal := none, shellProc := none }

/-- C8 counterexample: after a spawn followed by the process exiting on its
own — the watchdog's backoff window, or forever once it has given up — the
session is in the Exited state, yet `writeToTerminal` forwards the bytes to
the stale handle instead of silently dropping them. -/
theorem write_in_exited_state_counterexample :
    sessionState (processExit (spawnTerminal 0 "s")) = SessionState.Exited ∧
    sessionState (processExit (spawnTerminal 0 "s")) ≠ SessionState.Running ∧
    (writeToTerminal (processExit (spawnTerminal 0 "s")) [7]).2 = [(0, [7])] ∧
    (writeToTerminal (processExit (spawnTerminal 0 "s")) [7]).2 ≠ [] := by
  refine ⟨?_, ?_, ?_, ?_⟩ <;> decide

/-- C8 (amended): `writeToTerminal` never changes state and never raises (it
is total and returns the state unchanged); it forwards the bytes — exactly
once — iff the pty handle is present, which is the Running state and also the
Exited window in which the process has died but nothing has cleared the
handle; it is a silent no-op exactly in the handle-absent Absent state, in
particular after `killTerminal` tears the session down. -/
theorem write_forwards_iff_handle_amended (st : TerminalModuleState)
    (data : List Nat) (keep : Bool) :
    (writeToTerminal st data).1 = st ∧
    (writeToTerminal st data).2.map Prod.snd =
      (if st.terminal.isSome then [data] else []) ∧
    (writeToTerminal st data).2.map Prod.snd =
      (match sessionState st with
        | SessionState.Absent => []
        | SessionState.Running => [data]
        | SessionState.Exited => [data]) ∧
    (writeToTerminal (killTerminal st keep) data).2 = [] ∧
    (killTerminal st keep).terminal = none := by
  cases h : st.terminal with
  | none => simp [writeToTerminal, killTerminal, sessionState, h]
  | some hdl =>
    cases hp : st.procExited <;>
      simp [writeToTerminal, killTerminal, sessionState, h, hp]
